import Mathlib

/-!
Verification development for the vi_project repository: a shallow embedding
of the ticker pipeline (`yf_pull_iv_data.py`), its single-ticker variant
(`yf_pull_iv_data_lai.py`), and the batch CSV splitter (`split_csv.py`),
together with theorems settling the specification claims.

Modelling conventions:
* Python numbers (int/float) become `Rat`; `None` becomes `Value.absent`.
* Provider responses (quote info dict, statement rows, price history) are
  explicit data passed to the extraction function; the dict `.get` /
  statement `label in index` lookups become association-list lookups.
* The only exception path reachable in `fetch_financial_data` with
  well-formed provider data is `hist['Close'].iloc[-1]` raising on an
  empty history frame; it is modelled by the extraction returning `none`.
* Thread scheduling is modelled by running the per-ticker atomic
  lock-guarded updates in an arbitrary permutation of the input list;
  each worker's single critical-section update is one fold step.
-/

attribute [local semireducible] Rat.mul Rat.add Rat.sub Rat.inv

namespace VIProject

/-- A cell value in the financial summary: a number (Python int/float),
a value of any other type, or Python `None` / a missing field. -/
inductive Value where
  | num : Rat → Value
  | other : String → Value
  | absent : Value
deriving DecidableEq, Repr

/-- Round a rational to the nearest integer, ties to even, as Python's
built-in `round` does (floating-point representation abstracted to exact
rationals). -/
def roundHalfEven (x : Rat) : Int :=
  let f := ⌊x⌋
  let frac := x - (f : Rat)
  if frac < 1/2 then f
  else if (1 : Rat)/2 < frac then f + 1
  else if f % 2 = 0 then f else f + 1

/-- Python `round(x, 2)`: round to 2 decimal places. -/
def round2 (x : Rat) : Rat := ((roundHalfEven (x * 100) : Rat)) / 100

/-- The per-cell post-processing lambda of line 97 (batch) / line 99 (lai):
`round(x, 2) if isinstance(x, (int, float)) else x`. -/
def roundCell : Value → Value
  | .num q => .num (round2 q)
  | v => v

/-- A calendar date, used for the price-history window. -/
structure DateD where
  year : Nat
  month : Nat
  day : Nat
deriving DecidableEq, Repr

/-- Lexicographic strict order on dates. -/
def dateLt (a b : DateD) : Bool :=
  if a.year ≠ b.year then decide (a.year < b.year)
  else if a.month ≠ b.month then decide (a.month < b.month)
  else decide (a.day < b.day)

/-- Lexicographic order on dates. -/
def dateLe (a b : DateD) : Bool := dateLt a b || a == b

/-- Start of the queried history window (line 74):
`start=f"{current_year - 3}-01-01"`. -/
def window_start (today : DateD) : DateD := ⟨today.year - 3, 1, 1⟩

/-- End of the queried history window (line 74): `end=f"{current_year}-01-01"`.
Note this is January 1 of the current year, not today. -/
def window_end (today : DateD) : DateD := ⟨today.year, 1, 1⟩

/-- The provider's answer to `ticker.history(start, end)`: the rows of the
full chronological close-price series whose date falls in the requested
window (the `end` date is exclusive). -/
def histFilter (today : DateD) (closes : List (DateD × Rat)) : List (DateD × Rat) :=
  closes.filter (fun c => dateLe (window_start today) c.1 && dateLt c.1 (window_end today))

/-- The provider responses one extraction consumes: quote-info fields,
the three statements (row label to most-recent-period value), and the
full chronological close-price series backing `ticker.history`. -/
structure ProviderData where
  info : List (String × Rat)
  income : List (String × Rat)
  balance : List (String × Rat)
  cashflow : List (String × Rat)
  closes : List (DateD × Rat)
deriving DecidableEq, Repr

/-- `info.get(key, None)` / `stmt.loc[label].iloc[0] if label in stmt.index`. -/
def getField (d : List (String × Rat)) (k : String) : Option Rat := d.lookup k

/-- Line 66: `balance_sheet.loc['Share Issued'].iloc[0] if 'Share Issued' in
balance_sheet.index else shares_outstanding` (the quote-info fallback). -/
def shares_outstanding_used (p : ProviderData) : Option Rat :=
  match getField p.balance "Share Issued" with
  | some v => some v
  | none => getField p.info "sharesOutstanding"

/-- Line 69: most-recent-period `Stockholders Equity` row. -/
def total_equity_src (p : ProviderData) : Option Rat :=
  getField p.balance "Stockholders Equity"

/-- Line 70: `total_equity / shares_outstanding_stmt if total_equity is not
None and shares_outstanding_stmt is not None else None`. The division is
unguarded: a present zero denominator is divided by as-is. -/
def bvps_calc (total_equity shares : Option Rat) : Option Rat :=
  match total_equity, shares with
  | some a, some b => some (a / b)
  | _, _ => none

/-- The BVPS operands as wired on line 70. -/
def bvps_src (p : ProviderData) : Option Rat :=
  bvps_calc (total_equity_src p) (shares_outstanding_used p)

/-- Lift an optional number into a summary cell (`None` stays absent). -/
def vo : Option Rat → Value
  | some q => .num q
  | none => .absent

/-- The `summary_data` dict of lines 77-93 (insertion order preserved),
before the rounding pass.  These 15 rows are common to both variants. -/
def summary_rows (p : ProviderData) : List (String × Value) :=
  [("Beta (Î²)", vo (getField p.info "beta")),
   ("Current Price", vo (getField p.info "currentPrice")),
   ("Market Cap", vo (getField p.info "marketCap")),
   ("P/E Ratio", vo (getField p.info "trailingPE")),
   ("Forward P/E", vo (getField p.info "forwardPE")),
   ("Dividend Rate", vo (getField p.info "dividendRate")),
   ("Dividend Yield", vo (getField p.info "dividendYield")),
   ("ROE", vo (getField p.info "returnOnEquity")),
   ("Free Cash Flow (FCF)", vo (getField p.cashflow "Free Cash Flow")),
   ("Net Income", vo (getField p.income "Net Income")),
   ("Shares Outstanding", vo (shares_outstanding_used p)),
   ("EPS", vo (getField p.income "Basic EPS")),
   ("Total Debt", vo (getField p.balance "Total Debt")),
   ("Total Equity", vo (total_equity_src p)),
   ("BVPS", vo (bvps_src p))]

/-- The fixed metric-name set of the batch summary. -/
def metric_names : List String :=
  ["Beta (Î²)", "Current Price", "Market Cap", "P/E Ratio", "Forward P/E",
   "Dividend Rate", "Dividend Yield", "ROE", "Free Cash Flow (FCF)",
   "Net Income", "Shares Outstanding", "EPS", "Total Debt", "Total Equity",
   "BVPS"]

/-- `fetch_financial_data` of `yf_pull_iv_data.py` (batch variant).
Line 75 `hist['Close'].iloc[-1]` raises on an empty history frame, the
`except` at line 100 catches it, and the function returns `None`; with a
nonempty history the computed value is dropped (it is not a key of
`summary_data` in this variant). -/
def fetch_financial_data (today : DateD) (p : ProviderData) : Option (List (String × Value)) :=
  match (histFilter today p.closes).getLast? with
  | none => none
  | some _ => some ((summary_rows p).map (fun r => (r.1, roundCell r.2)))

/-- `fetch_financial_data` of `yf_pull_iv_data_lai.py` (single-ticker
variant): identical, except that the last windowed close is row 16 of the
summary. -/
def fetch_financial_data_lai (today : DateD) (p : ProviderData) : Option (List (String × Value)) :=
  match (histFilter today p.closes).getLast? with
  | none => none
  | some c =>
      some ((summary_rows p ++ [("Last 3 Years Close Price", Value.num c.2)]).map
        (fun r => (r.1, roundCell r.2)))

/-- The provider calls issued by `fetch_financial_data` in source order
(lines 47, 48, 49, 52 and 74 of `yf_pull_iv_data.py`). -/
def fetch_provider_calls : List String :=
  ["financials", "balance_sheet", "cashflow", "info", "history"]

/-- The provider calls issued by the lai variant (lines 47-52 and 74 of
`yf_pull_iv_data_lai.py` are identical to the batch variant). -/
def fetch_provider_calls_lai : List String := fetch_provider_calls

/-- `SUPPORTED_SUFFIXES` (lines 13-15): note the final empty string. -/
def SUPPORTED_SUFFIXES : List String :=
  [".HK", ".SS", ".SZ", ".KS", ".T", ".L", ".AX", ".TO",
   ".V", ".SI", ".NZ", ".MI", ".PA", ".F", ".DE", ".ST",
   ".HE", ".SW", ".MC", ""]

/-- Python `ticker.endswith(suffix)`. -/
def py_endswith (ticker suffix : String) : Bool :=
  suffix.data.isSuffixOf ticker.data

/-- `is_supported_ticker` (lines 27-28): `any(ticker.endswith(suffix) for
suffix in SUPPORTED_SUFFIXES)`. -/
def is_supported_ticker (ticker : String) : Bool :=
  SUPPORTED_SUFFIXES.any (fun suffix => py_endswith ticker suffix)

/-- The environment one batch run interacts with: the validator's verdict
per ticker (`validate_ticker`, a provider lookup) and the provider
responses each extraction consumes, plus the current date. -/
structure Env where
  validE : String → Bool
  provider : String → ProviderData
  today : DateD

/-- The shared mutable state of one run (line 171-172): the results dict
and the failure list. -/
structure BatchResult where
  results : List (String × List (String × Value))
  failed : List String

/-- Python dict assignment `d[k] = v`: overwrite the entry if the key is
present, else append it. -/
def dictInsert {α : Type} : List (String × α) → String → α → List (String × α)
  | [], k, v => [(k, v)]
  | e :: rest, k, v => if e.1 == k then (k, v) :: rest else e :: dictInsert rest k v

/-- `process_ticker` (lines 110-148): classify, validate, extract, then
record the outcome under the lock.  Each branch performs exactly one
lock-guarded update of the shared state, which is the whole effect of one
worker on `BatchResult`. -/
def process_ticker (env : Env) (st : BatchResult) (t : String) : BatchResult :=
  if ¬ is_supported_ticker t then { st with failed := st.failed ++ [t] }
  else if ¬ env.validE t then { st with failed := st.failed ++ [t] }
  else match fetch_financial_data env.today (env.provider t) with
    | none => { st with failed := st.failed ++ [t] }
    | some d =>
        if d.isEmpty then { st with failed := st.failed ++ [t] }
        else { st with results := dictInsert st.results t d }

/-- One batch run (lines 171-181): every ticker's worker performs its
critical-section update exactly once; `order` is the order in which the
lock is acquired, i.e. the thread schedule. -/
def run_batch (env : Env) (order : List String) : BatchResult :=
  order.foldl (process_ticker env) ⟨[], []⟩

/-- Whether `process_ticker` reaches the success branch for a ticker. -/
def outcome_success (env : Env) (t : String) : Bool :=
  is_supported_ticker t && env.validE t &&
    (match fetch_financial_data env.today (env.provider t) with
     | none => false
     | some d => !d.isEmpty)

/-- Membership of a ticker in the results dict. -/
def in_results (st : BatchResult) (t : String) : Bool :=
  st.results.any (fun e => e.1 == t)

/-- Membership of a ticker in the failure list. -/
def in_failed (st : BatchResult) (t : String) : Bool :=
  st.failed.contains t

/-- After the join-all barrier, every input ticker is in exactly one of
the results dict and the failure list. -/
def BatchInvariant (env : Env) (tickers order : List String) : Prop :=
  ∀ t ∈ tickers,
    (in_results (run_batch env order) t = true ∧ ¬ in_failed (run_batch env order) t = true) ∨
    (in_failed (run_batch env order) t = true ∧ ¬ in_results (run_batch env order) t = true)

/-- `OUTPUT_DIR` (line 11). -/
def OUTPUT_DIR : String := "./output_reports/"

/-- A filesystem: the set of existing directories and the files (path to
CSV rows, each row a list of cells). -/
structure FS where
  dirs : List String
  files : List (String × List (List String))
deriving DecidableEq, Repr

/-- `ensure_output_dir` (lines 23-25): create the directory iff absent. -/
def ensure_output_dir (fs : FS) : FS :=
  if OUTPUT_DIR ∈ fs.dirs then fs else { fs with dirs := fs.dirs ++ [OUTPUT_DIR] }

/-- `DataFrame.to_csv(path)`: fails if the directory does not exist,
otherwise creates or overwrites the file. -/
def fsWrite (fs : FS) (dir fname : String) (content : List (List String)) : Option FS :=
  if dir ∈ fs.dirs then
    some { fs with files := dictInsert fs.files (dir ++ fname) content }
  else none

/-- Render a cell for CSV export. -/
def showValue : Value → String
  | .num q => toString q
  | .other s => s
  | .absent => ""

/-- The two-column CSV rows written by `to_csv(index=False)`: the
`Metric,Value` header then one row per metric. -/
def to_csv_rows (data : List (String × Value)) : List (List String) :=
  ["Metric", "Value"] :: data.map (fun r => [r.1, showValue r.2])

/-- `export_to_csv` of `yf_pull_iv_data.py` (lines 150-154): ensure the
output directory, then write `{ticker}_financials.csv`. -/
def export_to_csv (ticker : String) (data : List (String × Value)) (fs : FS) : Option FS :=
  fsWrite (ensure_output_dir fs) OUTPUT_DIR (ticker ++ "_financials.csv") (to_csv_rows data)

/-- `export_to_csv` of `yf_pull_iv_data_lai.py` (lines 112-114): write the
same file but with no `ensure_output_dir` call anywhere in this variant. -/
def export_to_csv_lai (ticker : String) (data : List (String × Value)) (fs : FS) : Option FS :=
  fsWrite fs OUTPUT_DIR (ticker ++ "_financials.csv") (to_csv_rows data)

/-- `num_files` (line 42): `(total_tickers + tickers_per_file - 1) //
tickers_per_file`. -/
def num_files (total k : Nat) : Nat := (total + k - 1) / k

/-- The slice `tickers[i*k : min((i+1)*k, total)]` (lines 47-49). -/
def chunk_slice (tickers : List String) (k i : Nat) : List String :=
  (tickers.drop (i * k)).take k

/-- The chunks produced by the loop of lines 46-55, in order. -/
def split_chunks (tickers : List String) (k : Nat) : List (List String) :=
  (List.range (num_files tickers.length k)).map (chunk_slice tickers k)

/-- `f"{output_dir}/{base_name}_part{i+1}.csv"` (line 52), for loop index
`i` (so the visible numbering starts at 1). -/
def part_name (dir base : String) (i : Nat) : String :=
  dir ++ "/" ++ base ++ "_part" ++ toString (i + 1) ++ ".csv"

/-- The output files of the splitter loop: for each chunk, its path and
its single-column CSV rows (the original header then one ticker per row). -/
def split_files (dir base header : String) (tickers : List String) (k : Nat) :
    List (String × List (List String)) :=
  (List.range (num_files tickers.length k)).map
    (fun i => (part_name dir base i, [header] :: (chunk_slice tickers k i).map (fun t => [t])))

/-- The chunk-size acceptance test of the prompt loop (lines 30-36):
`tickers_per_file <= 0` re-prompts, `tickers_per_file > total_tickers`
re-prompts, anything else breaks out of the loop. -/
def chunk_size_ok (total k : Int) : Bool :=
  !(decide (k ≤ 0)) && !(decide (k > total))

/-- The prompt loop (lines 27-38): keep asking until an input is accepted;
the first accepted input is used.  If no input is ever accepted the loop
never terminates and no file is produced, modelled as `none`. -/
def prompt_chunk_size (total : Int) (inputs : List Int) : Option Int :=
  inputs.find? (fun k => chunk_size_ok total k)

/-- The whole splitter flow: prompt for a chunk size over the user's
successive inputs, then generate the output files. -/
def split_program (dir base header : String) (tickers : List String) (inputs : List Int) :
    List (String × List (List String)) :=
  match prompt_chunk_size (tickers.length : Int) inputs with
  | none => []
  | some k => split_files dir base header tickers k.toNat

/-- The metric the spec's words describe for row 16 of the lai summary:
the most recent close within the trailing 3-calendar-year window ending
today.  Stated from the spec sentence, to be compared with the code's
window (`histFilter`, whose window ends January 1 of the current year). -/
def spec_last_close_window_ending_today (today : DateD) (closes : List (DateD × Rat)) :
    Option Rat :=
  (closes.filter (fun c =>
    dateLe ⟨today.year - 3, today.month, today.day⟩ c.1 && dateLe c.1 today)).getLast?.map
    (fun c => c.2)

/-- Concrete current date used by the concrete runs below. -/
def todayW : DateD := ⟨2026, 10, 12⟩

/-- Provider data with empty statements and one in-window close row. -/
def pW : ProviderData := ⟨[], [], [], [], [(⟨2024, 6, 1⟩, 10)]⟩

/-- Provider data realising the spec's BVPS example: Total Equity 1000,
Share Issued 100. -/
def pB : ProviderData :=
  ⟨[], [], [("Stockholders Equity", (1000 : Rat)), ("Share Issued", 100)], [], [(⟨2024, 6, 1⟩, 10)]⟩

/-- Provider data with a close inside the code's window and a more recent
close between January 1 of the current year and today. -/
def p3 : ProviderData := ⟨[], [], [], [], [(⟨2024, 6, 1⟩, 10), (⟨2026, 3, 1⟩, 20)]⟩

/-- `pW` with the price-history response emptied. -/
def pE : ProviderData := ⟨[], [], [], [], []⟩

/-- `pW` with a different nonempty price-history response. -/
def pH : ProviderData := ⟨[], [], [], [], [(⟨2024, 7, 1⟩, 99)]⟩

/-- The summary `fetch_financial_data todayW pW` produces. -/
def dW : List (String × Value) :=
  [("Beta (Î²)", Value.absent), ("Current Price", Value.absent),
   ("Market Cap", Value.absent), ("P/E Ratio", Value.absent),
   ("Forward P/E", Value.absent), ("Dividend Rate", Value.absent),
   ("Dividend Yield", Value.absent), ("ROE", Value.absent),
   ("Free Cash Flow (FCF)", Value.absent), ("Net Income", Value.absent),
   ("Shares Outstanding", Value.absent), ("EPS", Value.absent),
   ("Total Debt", Value.absent), ("Total Equity", Value.absent),
   ("BVPS", Value.absent)]

/-- A concrete environment in which every ticker validates and extraction
succeeds. -/
def envW : Env := { validE := fun _ => true, provider := fun _ => pW, today := todayW }

/-- The empty filesystem. -/
def fs0 : FS := ⟨[], []⟩

/-- A one-row summary used by the export runs. -/
def sample_rows : List (String × Value) := [("Total Equity", Value.num 1000)]

/-- The filesystem produced by the batch export from `fs0`. -/
def fs1 : FS :=
  ⟨[OUTPUT_DIR], [(OUTPUT_DIR ++ "AAPL_financials.csv", to_csv_rows sample_rows)]⟩

/-- Ten tickers, realising the spec's batch-split example. -/
def l10 : List String :=
  ["T1", "T2", "T3", "T4", "T5", "T6", "T7", "T8", "T9", "T10"]

/-- The full splitter contract for one accepted input, as one predicate. -/
def SplitSpec (dir base header : String) (tickers : List String) (k : Nat) : Prop :=
  (split_files dir base header tickers k).length = num_files tickers.length k ∧
  tickers.length ≤ k * num_files tickers.length k ∧
  k * (num_files tickers.length k - 1) < tickers.length ∧
  (split_files dir base header tickers k).map Prod.fst =
    (List.range (num_files tickers.length k)).map (part_name dir base) ∧
  (∀ i, part_name dir base i = dir ++ "/" ++ base ++ "_part" ++ toString (i + 1) ++ ".csv") ∧
  (∀ f ∈ split_files dir base header tickers k,
    f.2.head? = some [header] ∧ ∀ row ∈ f.2, row.length = 1) ∧
  (split_chunks tickers k).flatten = tickers ∧
  (∀ i, i + 1 < num_files tickers.length k → (chunk_slice tickers k i).length = k) ∧
  (chunk_slice tickers k (num_files tickers.length k - 1)).length =
    tickers.length - (num_files tickers.length k - 1) * k ∧
  0 < (chunk_slice tickers k (num_files tickers.length k - 1)).length ∧
  (chunk_slice tickers k (num_files tickers.length k - 1)).length ≤ k

lemma fetch_eq_some {today : DateD} {p : ProviderData} {d : List (String × Value)}
    (h : fetch_financial_data today p = some d) :
    d = (summary_rows p).map (fun r => (r.1, roundCell r.2)) := by
  unfold fetch_financial_data at h
  cases hl : (histFilter today p.closes).getLast? with
  | none => rw [hl] at h; cases h
  | some c => rw [hl] at h; exact (Option.some.inj h).symm

lemma any_dictInsert {α : Type} (d : List (String × α)) (k t : String) (v : α) :
    ((dictInsert d k v).any (fun e => e.1 == t)) = true ↔
      (((d.any (fun e => e.1 == t)) = true) ∨ k = t) := by
  induction d with
  | nil => simp [dictInsert]
  | cons e rest ih =>
      by_cases h : e.1 = k
      · simp only [dictInsert]
        rw [if_pos (by simp [h])]
        simp only [List.any_cons, Bool.or_eq_true, beq_iff_eq, h]
        tauto
      · simp only [dictInsert]
        rw [if_neg (by simp [h])]
        simp only [List.any_cons, Bool.or_eq_true, beq_iff_eq, ih]
        tauto

lemma process_ticker_eq (env : Env) (st : BatchResult) (t : String) :
    process_ticker env st t =
      if outcome_success env t = true
      then { st with results := dictInsert st.results t ((fetch_financial_data env.today (env.provider t)).getD []) }
      else { st with failed := st.failed ++ [t] } := by
  unfold process_ticker outcome_success
  cases h1 : is_supported_ticker t with
  | false => simp
  | true =>
      cases h2 : env.validE t with
      | false => simp
      | true =>
          cases hf : fetch_financial_data env.today (env.provider t) with
          | none => simp
          | some d =>
              cases h3 : d.isEmpty with
              | true => simp
              | false => simp

lemma in_results_process (env : Env) (st : BatchResult) (t' t : String) :
    in_results (process_ticker env st t') t = true ↔
      (in_results st t = true ∨ (t' = t ∧ outcome_success env t' = true)) := by
  rw [process_ticker_eq]
  by_cases ho : outcome_success env t' = true
  · rw [if_pos ho]
    unfold in_results
    rw [any_dictInsert]
    simp [ho]
  · rw [if_neg ho]
    unfold in_results
    simp [ho]

lemma in_failed_process (env : Env) (st : BatchResult) (t' t : String) :
    in_failed (process_ticker env st t') t = true ↔
      (in_failed st t = true ∨ (t' = t ∧ outcome_success env t' = false)) := by
  rw [process_ticker_eq]
  by_cases ho : outcome_success env t' = true
  · rw [if_pos ho]
    unfold in_failed
    simp [ho]
  · rw [if_neg ho]
    have hfo : outcome_success env t' = false := by
      cases h : outcome_success env t' with
      | true => exact absurd h ho
      | false => rfl
    unfold in_failed
    simp [hfo, List.mem_append]
    exact or_congr Iff.rfl ⟨Eq.symm, Eq.symm⟩

lemma run_results_char (env : Env) (order : List String) :
    ∀ (st : BatchResult) (t : String),
      in_results (order.foldl (process_ticker env) st) t = true ↔
        (in_results st t = true ∨ (t ∈ order ∧ outcome_success env t = true)) := by
  induction order with
  | nil => intro st t; simp
  | cons t' rest ih =>
      intro st t
      rw [List.foldl_cons, ih, in_results_process]
      by_cases h : t' = t
      · subst h
        simp only [List.mem_cons, true_or, true_and]
        tauto
      · simp only [List.mem_cons]
        rw [iff_false_intro (Ne.symm h)]
        tauto

lemma run_failed_char (env : Env) (order : List String) :
    ∀ (st : BatchResult) (t : String),
      in_failed (order.foldl (process_ticker env) st) t = true ↔
        (in_failed st t = true ∨ (t ∈ order ∧ outcome_success env t = false)) := by
  induction order with
  | nil => intro st t; simp
  | cons t' rest ih =>
      intro st t
      rw [List.foldl_cons, ih, in_failed_process]
      by_cases h : t' = t
      · subst h
        simp only [List.mem_cons, true_or, true_and]
        tauto
      · simp only [List.mem_cons]
        rw [iff_false_intro (Ne.symm h)]
        tauto

/-- C1: after a batch run completes, every input ticker is in exactly one
of the shared results mapping and the shared failure list — never both,
never neither — for every thread schedule (modelled as an arbitrary
permutation of the per-ticker critical-section updates). -/
theorem claim_C1_exactly_one_outcome (env : Env) (tickers order : List String)
    (hperm : order.Perm tickers) : BatchInvariant env tickers order := by
  intro t ht
  have hto : t ∈ order := hperm.mem_iff.mpr ht
  have hr := run_results_char env order ⟨[], []⟩ t
  have hf := run_failed_char env order ⟨[], []⟩ t
  have h0r : in_results ⟨[], []⟩ t = false := rfl
  have h0f : in_failed ⟨[], []⟩ t = false := rfl
  unfold run_batch
  cases ho : outcome_success env t with
  | true =>
      left
      constructor
      · exact hr.mpr (Or.inr ⟨hto, ho⟩)
      · intro hc
        rcases hf.mp hc with h | ⟨_, hfo⟩
        · rw [h0f] at h; cases h
        · rw [ho] at hfo; cases hfo
  | false =>
      right
      constructor
      · exact hf.mpr (Or.inr ⟨hto, ho⟩)
      · intro hc
        rcases hr.mp hc with h | ⟨_, hro⟩
        · rw [h0r] at h; cases h
        · rw [ho] at hro; cases hro

/-- C1 witness: a concrete one-ticker run in which the single schedule is
the identity permutation. -/
theorem claim_C1_exactly_one_outcome_witness : BatchInvariant envW ["AAPL"] ["AAPL"] :=
  claim_C1_exactly_one_outcome envW ["AAPL"] ["AAPL"] (List.Perm.refl _)

/-- C3 counterexample: with today = 2026-10-12 and a close on 2026-03-01
(inside the trailing 3-calendar-year window ending today, after January 1),
the lai metric is the rounded close of 2024-06-01 (10), not the most
recent close of the window ending today (20). -/
theorem claim_C3_window_counterexample :
    (fetch_financial_data_lai todayW p3).map
        (fun d => d.lookup "Last 3 Years Close Price") = some (some (Value.num 10)) ∧
    spec_last_close_window_ending_today todayW p3.closes = some 20 ∧
    Value.num (10 : Rat) ≠ Value.num (20 : Rat) := by
  refine ⟨by decide, by decide, by decide⟩

/-- C3 (amended): the lai metric is the last row of the queried history,
whose window is January 1 of (current year − 3) up to (exclusively)
January 1 of the current year — not a window ending today; and when that
queried history has no rows the whole extraction returns absent (no
summary at all), so no summary with the metric individually absent is
ever produced. -/
theorem claim_C3_last_close_amended :
    (∀ today p,
       (fetch_financial_data_lai today p).map
           (fun d => d.lookup "Last 3 Years Close Price") =
         ((histFilter today p.closes).getLast?).map
           (fun c => some (Value.num (round2 c.2)))) ∧
    (∀ today, window_start today = ⟨today.year - 3, 1, 1⟩ ∧
       window_end today = ⟨today.year, 1, 1⟩) := by
  refine ⟨fun today p => ?_, fun today => ⟨rfl, rfl⟩⟩
  unfold fetch_financial_data_lai
  cases hl : (histFilter today p.closes).getLast? with
  | none => rfl
  | some c =>
      simp only [Option.map_some]
      simp [summary_rows, List.lookup, roundCell]

/-- C7 counterexample: two batch-variant extractions whose provider
responses agree on the quote info and all three statements and differ only
in the price-history response have different outcomes (the history call is
made in the batch variant too — `fetch_provider_calls` has five entries —
and an empty history aborts the whole extraction). -/
theorem claim_C7_history_counterexample :
    pW.info = pE.info ∧ pW.income = pE.income ∧ pW.balance = pE.balance ∧
    pW.cashflow = pE.cashflow ∧
    fetch_financial_data todayW pW ≠ fetch_financial_data todayW pE ∧
    fetch_provider_calls.length = 5 ∧ "history" ∈ fetch_provider_calls := by
  refine ⟨rfl, rfl, rfl, rfl, by decide, rfl, by decide⟩

/-- C7 (amended): both variants perform the same five provider calls —
quote info, the three statements, and the 3-year price history; in the
batch variant the fetched history contributes no summary row, so two runs
that differ only in the price-history response and both receive a
nonempty windowed history have the same outcome, but an empty history
aborts the batch extraction as well. -/
theorem claim_C7_five_calls_amended :
    fetch_provider_calls = ["financials", "balance_sheet", "cashflow", "info", "history"] ∧
    fetch_provider_calls_lai = fetch_provider_calls ∧
    (∀ today (p q : ProviderData), p.info = q.info → p.income = q.income →
       p.balance = q.balance → p.cashflow = q.cashflow →
       histFilter today p.closes ≠ [] → histFilter today q.closes ≠ [] →
       fetch_financial_data today p = fetch_financial_data today q) ∧
    (∀ today (p : ProviderData), histFilter today p.closes = [] →
       fetch_financial_data today p = none) := by
  refine ⟨rfl, rfl, ?_, ?_⟩
  · intro today p q h1 h2 h3 h4 hp hq
    have hte : total_equity_src p = total_equity_src q := by
      unfold total_equity_src getField
      rw [h3]
    have hso : shares_outstanding_used p = shares_outstanding_used q := by
      unfold shares_outstanding_used getField
      rw [h1, h3]
    have hrows : summary_rows p = summary_rows q := by
      unfold summary_rows bvps_src getField
      rw [h1, h2, h3, h4, hte, hso]
    obtain ⟨cp, hcp⟩ := Option.ne_none_iff_exists'.mp
      (mt List.getLast?_eq_none_iff.mp hp)
    obtain ⟨cq, hcq⟩ := Option.ne_none_iff_exists'.mp
      (mt List.getLast?_eq_none_iff.mp hq)
    unfold fetch_financial_data
    rw [hcp, hcq, hrows]
  · intro today p h
    unfold fetch_financial_data
    rw [h]
    rfl

/-- C7 witness: two concrete batch extractions differing only in a
(nonempty) price history coincide. -/
theorem claim_C7_five_calls_amended_witness :
    fetch_financial_data todayW pW = fetch_financial_data todayW pH :=
  claim_C7_five_calls_amended.2.2.1 todayW pW pH rfl rfl rfl rfl (by decide) (by decide)

/-- C5: `is_supported_ticker` is the pure predicate "some suffix of the
allow-list is a suffix of the ticker string"; because the allow-list
contains the empty suffix it accepts every ticker, including `0700.HK`
and `XYZ@@`. -/
theorem claim_C5_is_supported_always_true :
    (∀ t, (is_supported_ticker t = true ↔ ∃ s ∈ SUPPORTED_SUFFIXES, py_endswith t s = true)) ∧
    (∀ t, is_supported_ticker t = true) ∧
    is_supported_ticker "0700.HK" = true ∧ is_supported_ticker "XYZ@@" = true := by
  have hempty : ∀ t : String, py_endswith t "" = true := by
    intro t
    show List.isSuffixOf ([] : List Char) t.data = true
    simp [List.isSuffixOf]
  have hall : ∀ t, is_supported_ticker t = true := by
    intro t
    have : ∃ s ∈ SUPPORTED_SUFFIXES, py_endswith t s = true :=
      ⟨"", by simp [SUPPORTED_SUFFIXES], hempty t⟩
    simpa [is_supported_ticker, List.any_eq_true] using this
  exact ⟨fun t => by simp [is_supported_ticker, List.any_eq_true], hall, hall _, hall _⟩

/-- C4: the BVPS row of every returned summary is the rounded quotient of
the Total Equity operand and the Shares-Outstanding value used in the
summary, absent iff either operand is; the quotient itself (`bvps_calc`)
is an unguarded division, performed also at denominator zero. -/
theorem claim_C4_bvps_division :
    (∀ today p d, fetch_financial_data today p = some d →
       d.lookup "BVPS" = some (roundCell (vo (bvps_src p))) ∧
       d.lookup "Shares Outstanding" = some (roundCell (vo (shares_outstanding_used p)))) ∧
    (∀ a b : Rat, bvps_calc (some a) (some b) = some (a / b)) ∧
    (∀ o, bvps_calc none o = none) ∧ (∀ o, bvps_calc o none = none) := by
  refine ⟨?_, fun a b => rfl, fun o => rfl, fun o => ?_⟩
  · intro today p d h
    rw [fetch_eq_some h]
    constructor <;> simp [summary_rows, List.lookup]
  · cases o <;> rfl

/-- C4 witness: the spec's example, Total Equity 1000 and Share Issued
100, gives a BVPS row, and its value is 10. -/
theorem claim_C4_bvps_division_witness :
    (((summary_rows pB).map (fun r => (r.1, roundCell r.2))).lookup "BVPS"
       = some (roundCell (vo (bvps_src pB))) ∧
     ((summary_rows pB).map (fun r => (r.1, roundCell r.2))).lookup "Shares Outstanding"
       = some (roundCell (vo (shares_outstanding_used pB)))) ∧
    roundCell (vo (bvps_src pB)) = Value.num 10 :=
  ⟨claim_C4_bvps_division.1 todayW pB _ rfl, by decide⟩

/-- C6: the post-processing pass rounds every numeric cell to 2 decimal
places (`12.3456` becomes `12.35`), leaves every non-numeric cell
(including absent) unchanged, and every returned summary is exactly the
raw summary with this pass applied to each value. -/
theorem claim_C6_round_two_decimals :
    (∀ q, roundCell (Value.num q) = Value.num (round2 q)) ∧
    (∀ s, roundCell (Value.other s) = Value.other s) ∧
    roundCell Value.absent = Value.absent ∧
    round2 (123456/10000 : Rat) = (1235/100 : Rat) ∧
    (∀ today p d, fetch_financial_data today p = some d →
       d = (summary_rows p).map (fun r => (r.1, roundCell r.2))) := by
  refine ⟨fun q => rfl, fun s => rfl, rfl, by decide, fun today p d h => fetch_eq_some h⟩

/-- C6 witness: a concrete successful extraction, with every absent cell
passed through unchanged by the rounding pass. -/
theorem claim_C6_round_two_decimals_witness :
    dW = (summary_rows pW).map (fun r => (r.1, roundCell r.2)) :=
  claim_C6_round_two_decimals.2.2.2.2 todayW pW dW (by decide)

/-- C10: every summary the batch extraction returns has exactly the fixed
15 metric rows, hence is never empty, so `process_ticker`'s empty-summary
branch never fires: the success outcome coincides with extraction merely
returning a summary. -/
theorem claim_C10_summary_never_empty :
    (∀ today p d, fetch_financial_data today p = some d →
       d.map Prod.fst = metric_names ∧ d.length = 15 ∧ d.isEmpty = false) ∧
    (∀ env t, outcome_success env t =
       (is_supported_ticker t && env.validE t &&
        (fetch_financial_data env.today (env.provider t)).isSome)) := by
  have key : ∀ today p d, fetch_financial_data today p = some d →
      d.map Prod.fst = metric_names ∧ d.length = 15 ∧ d.isEmpty = false := by
    intro today p d h
    rw [fetch_eq_some h]
    refine ⟨?_, ?_, ?_⟩ <;> simp [summary_rows, metric_names]
  refine ⟨key, fun env t => ?_⟩
  unfold outcome_success
  cases hf : fetch_financial_data env.today (env.provider t) with
  | none => simp
  | some d =>
      have := (key _ _ _ hf).2.2
      simp [this]

/-- C10 witness: a concrete returned summary with its 15 fixed rows. -/
theorem claim_C10_summary_never_empty_witness :
    dW.map Prod.fst = metric_names ∧ dW.length = 15 ∧ dW.isEmpty = false :=
  claim_C10_summary_never_empty.1 todayW pW dW (by decide)

/-- C8: the splitter's chunk-size prompt accepts exactly the sizes in
`[1, len(tickers)]` — zero, negative, and too-large sizes are re-prompted —
and a run whose candidate inputs are all rejected produces no output file;
whatever size the prompt settles on is an accepted one. -/
theorem claim_C8_chunk_size_validation :
    (∀ total k : Int, chunk_size_ok total k = true ↔ 1 ≤ k ∧ k ≤ total) ∧
    (∀ dir base header tickers inputs,
       (∀ k ∈ inputs, chunk_size_ok (tickers.length : Int) k = false) →
       split_program dir base header tickers inputs = []) ∧
    (∀ (total : Int) inputs k, prompt_chunk_size total inputs = some k →
       chunk_size_ok total k = true) := by
  refine ⟨?_, ?_, ?_⟩
  · intro total k
    simp only [chunk_size_ok, Bool.and_eq_true, Bool.not_eq_true', decide_eq_false_iff_not,
      not_lt, not_le]
    omega
  · intro dir base header tickers inputs h
    unfold split_program prompt_chunk_size
    rw [List.find?_eq_none.mpr (by intro k hk; simp [h k hk])]
  · intro total inputs k h
    exact List.find?_some h

/-- C8 witness: with two tickers, the inputs 0, −5 and 11 are all
rejected and no file is produced. -/
theorem claim_C8_chunk_size_validation_witness :
    split_program "d" "b" "h" ["A", "B"] [0, -5, 11] = [] :=
  claim_C8_chunk_size_validation.2.1 "d" "b" "h" ["A", "B"] [0, -5, 11] (by decide)

lemma lookup_dictInsert {α : Type} (d : List (String × α)) (k : String) (v : α) :
    (dictInsert d k v).lookup k = some v := by
  induction d with
  | nil => simp [dictInsert, List.lookup]
  | cons e rest ih =>
      by_cases h : e.1 = k
      · simp only [dictInsert]
        rw [if_pos (by simp [h])]
        simp [List.lookup]
      · simp only [dictInsert]
        rw [if_neg (by simp [h])]
        cases e with
        | mk ek ev =>
            have : (k == ek) = false := by simp; exact fun he => h (by simp [he.symm])
            simp [List.lookup, this, ih]

lemma ensure_idem (fs : FS) :
    ensure_output_dir (ensure_output_dir fs) = ensure_output_dir fs := by
  unfold ensure_output_dir
  by_cases h : OUTPUT_DIR ∈ fs.dirs
  · simp [h]
  · simp [h]

/-- C9 counterexample: from an empty filesystem, the lai variant's export
fails (it never creates the output directory) while the batch variant's
export succeeds — so "export first ensures the output directory exists"
does not hold of every export in the sources. -/
theorem claim_C9_lai_counterexample :
    export_to_csv_lai "AAPL" sample_rows fs0 = none ∧
    export_to_csv "AAPL" sample_rows fs0 = some fs1 := by
  constructor
  · rfl
  · decide

/-- C9 (amended): the batch variant's export ensures the output directory
exists (an idempotent create) and then writes the summary as a two-column
CSV with header `Metric,Value` to one file per ticker, overwriting any
existing file of the same name; the lai variant's export writes the same
file but performs no directory creation, and fails when the directory is
absent (when it is present the two exports coincide). -/
theorem claim_C9_export_amended :
    ∀ t d fs,
      (export_to_csv t d fs).isSome = true ∧
      (∀ fs', export_to_csv t d fs = some fs' →
         fs'.files.lookup (OUTPUT_DIR ++ (t ++ "_financials.csv")) = some (to_csv_rows d) ∧
         OUTPUT_DIR ∈ fs'.dirs) ∧
      ensure_output_dir (ensure_output_dir fs) = ensure_output_dir fs ∧
      (to_csv_rows d).head? = some ["Metric", "Value"] ∧
      (OUTPUT_DIR ∉ fs.dirs → export_to_csv_lai t d fs = none) ∧
      (OUTPUT_DIR ∈ fs.dirs → export_to_csv_lai t d fs = export_to_csv t d fs) := by
  intro t d fs
  have hdir : OUTPUT_DIR ∈ (ensure_output_dir fs).dirs := by
    unfold ensure_output_dir
    by_cases h : OUTPUT_DIR ∈ fs.dirs
    · rw [if_pos h]; exact h
    · rw [if_neg h]; simp
  refine ⟨?_, ?_, ensure_idem fs, rfl, ?_, ?_⟩
  · unfold export_to_csv fsWrite
    rw [if_pos hdir]
    rfl
  · intro fs' h
    unfold export_to_csv fsWrite at h
    rw [if_pos hdir] at h
    cases h
    exact ⟨lookup_dictInsert _ _ _, hdir⟩
  · intro h
    unfold export_to_csv_lai fsWrite
    rw [if_neg h]
  · intro h
    have he : ensure_output_dir fs = fs := by
      unfold ensure_output_dir
      rw [if_pos h]
    unfold export_to_csv_lai export_to_csv
    rw [he]

/-- C9 witness: a concrete batch export writes the header CSV under the
created directory; the concrete lai export from the same empty
filesystem fails. -/
theorem claim_C9_export_amended_witness :
    (fs1.files.lookup (OUTPUT_DIR ++ ("AAPL" ++ "_financials.csv")) = some (to_csv_rows sample_rows) ∧
     OUTPUT_DIR ∈ fs1.dirs) ∧
    export_to_csv_lai "AAPL" sample_rows fs0 = none :=
  ⟨(claim_C9_export_amended "AAPL" sample_rows fs0).2.1 fs1 (by decide),
   (claim_C9_export_amended "AAPL" sample_rows fs0).2.2.2.2.1 (by decide)⟩

lemma flatten_chunks (k : Nat) :
    ∀ (m : Nat) (l : List String), l.length ≤ m * k →
      ((List.range m).map (fun i => (l.drop (i * k)).take k)).flatten = l := by
  intro m
  induction m with
  | zero =>
      intro l hl
      have : l = [] := List.eq_nil_of_length_eq_zero (by omega)
      subst this
      rfl
  | succ m ih =>
      intro l hl
      rw [List.range_succ_eq_map]
      simp only [List.map_cons, List.map_map, List.flatten_cons]
      have hcomp : ((List.range m).map (fun i => (l.drop (Nat.succ i * k)).take k)) =
          (List.range m).map (fun i => ((l.drop k).drop (i * k)).take k) := by
        refine List.map_congr_left (fun i _ => ?_)
        rw [List.drop_drop, Nat.succ_mul, Nat.add_comm k (i * k)]
      have hlen : (l.drop k).length ≤ m * k := by
        rw [List.length_drop]
        have : l.length ≤ m * k + k := by rw [← Nat.succ_mul]; exact hl
        omega
      calc (l.drop (0 * k)).take k ++
            ((List.range m).map (fun i => (l.drop ((fun i => Nat.succ i) i * k)).take k)).flatten
          = l.take k ++ (l.drop k) := by
            rw [hcomp, ih (l.drop k) hlen]
            simp
        _ = l := List.take_append_drop k l

lemma num_files_bounds (n k : Nat) (hk : 1 ≤ k) (hn : 1 ≤ n) :
    n ≤ k * num_files n k ∧ k * (num_files n k - 1) < n ∧ 1 ≤ num_files n k := by
  unfold num_files
  have hd := Nat.div_add_mod (n + k - 1) k
  have hr : (n + k - 1) % k < k := Nat.mod_lt _ hk
  set q := (n + k - 1) / k with hq
  set r := (n + k - 1) % k with hrdef
  have hq1 : 1 ≤ q := by
    rcases Nat.eq_zero_or_pos q with h0 | h1
    · rw [h0] at hd
      simp at hd
      omega
    · exact h1
  have hsplit : k * q = k * (q - 1) + k := by
    have h2 : q - 1 + 1 = q := Nat.succ_pred_eq_of_pos hq1
    calc k * q = k * ((q - 1) + 1) := by rw [h2]
      _ = k * (q - 1) + k := Nat.mul_succ k (q - 1)
  set a := k * (q - 1) with ha
  set b := k * q with hb
  omega

lemma chunk_slice_length (tickers : List String) (k i : Nat) :
    (chunk_slice tickers k i).length = min k (tickers.length - i * k) := by
  simp [chunk_slice]

/-- C2: for `1 ≤ k ≤ n` the splitter writes `⌈n/k⌉` files (the count `q`
satisfies `k*(q-1) < n ≤ k*q`), 1-indexed `{base}_part{i}.csv` names, each
file a single-column CSV opening with the original header, all chunks of
size `k` except a possibly shorter (never empty) last one, and the
in-order concatenation of the chunks is exactly the input list. -/
theorem claim_C2_split_contract :
    ∀ dir base header tickers k, 1 ≤ k → k ≤ tickers.length →
      SplitSpec dir base header tickers k := by
  intro dir base header tickers k hk hkn
  have hn : 1 ≤ tickers.length := le_trans hk hkn
  obtain ⟨hub, hlb, hq1⟩ := num_files_bounds tickers.length k hk hn
  refine ⟨?_, hub, hlb, ?_, fun i => rfl, ?_, ?_, ?_, ?_, ?_, ?_⟩
  · simp [split_files]
  · simp [split_files, List.map_map]
  · intro f hf
    simp only [split_files, List.mem_map, List.mem_range] at hf
    obtain ⟨i, _, rfl⟩ := hf
    refine ⟨rfl, ?_⟩
    intro row hrow
    rcases List.mem_cons.mp hrow with h | h
    · rw [h]
      rfl
    · obtain ⟨t, _, rfl⟩ := List.mem_map.mp h
      rfl
  · have := flatten_chunks k (num_files tickers.length k) tickers
      (by rw [Nat.mul_comm]; exact hub)
    simpa [split_chunks, chunk_slice] using this
  · intro i hi
    rw [chunk_slice_length]
    have h1 : i + 1 ≤ num_files tickers.length k - 1 := by omega
    have h2 : (i + 1) * k ≤ (num_files tickers.length k - 1) * k :=
      Nat.mul_le_mul_right k h1
    have h3 : (num_files tickers.length k - 1) * k < tickers.length := by
      rw [Nat.mul_comm]
      exact hlb
    have h4 : (i + 1) * k ≤ tickers.length := Nat.le_of_lt (Nat.lt_of_le_of_lt h2 h3)
    rw [Nat.succ_mul] at h4
    have h5 : k ≤ tickers.length - i * k := by
      set a := i * k with ha
      omega
    exact Nat.min_eq_left h5
  · rw [chunk_slice_length]
    have hsplit : k * num_files tickers.length k = k * (num_files tickers.length k - 1) + k := by
      have h2 : num_files tickers.length k - 1 + 1 = num_files tickers.length k :=
        Nat.succ_pred_eq_of_pos hq1
      calc k * num_files tickers.length k
          = k * ((num_files tickers.length k - 1) + 1) := by rw [h2]
        _ = k * (num_files tickers.length k - 1) + k :=
            Nat.mul_succ k (num_files tickers.length k - 1)
    have hcm : (num_files tickers.length k - 1) * k = k * (num_files tickers.length k - 1) :=
      Nat.mul_comm _ _
    rw [hcm]
    have h6 : tickers.length - k * (num_files tickers.length k - 1) ≤ k := by omega
    exact Nat.min_eq_right h6
  · rw [chunk_slice_length]
    have h3 : (num_files tickers.length k - 1) * k < tickers.length := by
      rw [Nat.mul_comm]
      exact hlb
    have : 0 < tickers.length - (num_files tickers.length k - 1) * k := by omega
    omega
  · rw [chunk_slice_length]
    exact Nat.min_le_left _ _

/-- C2 witness: the spec's example — ten tickers split with chunk size 3
give chunk lengths `[3, 3, 3, 1]` and concatenate back to the input. -/
theorem claim_C2_split_contract_witness :
    SplitSpec "." "tickers" "Symbol" l10 3 ∧
    (split_chunks l10 3).map List.length = [3, 3, 3, 1] :=
  ⟨claim_C2_split_contract "." "tickers" "Symbol" l10 3 (by decide) (by decide), by decide⟩

end VIProject
